import Mathlib

/-!
# Verification of the server-inventory EOSL pipeline

A shallow embedding of the data pipeline of `server_inventory.py`
(a Streamlit dashboard): date parsing, inventory loading/normalisation,
EOSL status classification, firmware flagging, KPI aggregation, the
conjunctive filter engine, and the append-only audit (change) log.

Modelling conventions:
* Calendar dates are integers (days since an arbitrary epoch); `today`
  is an explicit parameter (the Python code reads `date.today()`).
* The two Python-library primitives used by `parse_date_safe` are
  parameters: `strp fmt s` models `datetime.strptime(s, fmt).date()`
  (`none` = `ValueError` raised), and `toDatetimeCoerce s` models
  `pd.to_datetime(s, errors="coerce").date()` success
  (`none` = coercion produced `NaT`; note `pd.NaT.date()` returns `NaT`,
  it does not raise, so in that case `parse_date_safe` returns the
  `NaT` scalar — modelled by `PyDateVal.nat`).
* `pandas.Series.__bool__` (`NDFrame.__nonzero__`) unconditionally
  raises `ValueError: The truth value of a Series is ambiguous ...`.
  The OS-family branch of `apply_filters` evaluates
  `q["os_name"].str.strip()=="" and "Other" in os_filter`, where the
  left operand of the Python `and` is a Series, so that branch raises
  whenever `os_filter` is non-empty.  Fallible steps are modelled with
  `Except String`.
* In pandas >= 2.0 an ordering comparison of `NaT` with a
  `datetime.date` raises `TypeError` (GH#39196), so the classifier's
  `d < today` raises on a `NaT` date; modelled as an `Except.error`.
* The CSV persistence of the change log is abstracted to the sequence
  of appended entries: `LogStore.ok l` is a readable store holding the
  entries `l` in append order, `LogStore.absent` a missing file,
  `LogStore.malformed` a file `pd.read_csv` fails on.
-/

/-- Result of the Python date-parsing pipeline: `None`, the pandas `NaT`
scalar, or an actual `datetime.date` (days since epoch). -/
inductive PyDateVal where
  | none
  | nat
  | date (d : Int)
deriving DecidableEq

/-- The ordered list of fixed formats tried by `parse_date_safe`
(source line 51). -/
def DATE_FORMATS : List String :=
  ["%Y-%m-%d", "%d-%m-%Y", "%Y/%m/%d", "%d/%b/%Y", "%b %d %Y"]

/-- The `for fmt in (...)` / `try ... except: continue` loop of
`parse_date_safe`: first format whose `strptime` succeeds wins. -/
def tryFormats (strp : String → String → Option Int) (s : String) :
    List String → Option Int
  | [] => Option.none
  | f :: rest =>
    match strp f s with
    | some d => some d
    | Option.none => tryFormats strp s rest

/-- The ASCII whitespace characters stripped by Python's
`str.strip()`. -/
def isPySpace (c : Char) : Bool :=
  c == ' ' || c == '\t' || c == '\n' || c == '\x0d' ||
    c == '\x0b' || c == '\x0c'

/-- Drops the leading whitespace of a character list. -/
def dropLeadingWS : List Char → List Char
  | [] => []
  | c :: cs => if isPySpace c then dropLeadingWS cs else c :: cs

/-- Python's `str.strip()`: removes leading and trailing whitespace. -/
def pyStrip (s : String) : String :=
  ⟨(dropLeadingWS (dropLeadingWS s.toList).reverse).reverse⟩

/-- `parse_date_safe(s)` (source lines 48-60).  For a string input
`pd.isna(s)` is `False`, so the first guard reduces to the emptiness of
the stripped string.  The five fixed formats are tried on the stripped
string; the pandas fallback `pd.to_datetime(s, errors="coerce")` is
applied to the *unstripped* input.  When the fallback coerces to `NaT`,
`NaT.date()` returns `NaT` (no exception), which the function returns. -/
def parse_date_safe (strp : String → String → Option Int)
    (toDatetimeCoerce : String → Option Int) (s : String) : PyDateVal :=
  if pyStrip s == "" then .none
  else
    match tryFormats strp (pyStrip s) DATE_FORMATS with
    | some d => .date d
    | Option.none =>
      match toDatetimeCoerce s with
      | some d => .date d
      | Option.none => .nat

/-- One normalised inventory row: the 17 schema columns of
`REQUIRED_COLUMNS` (all strings) plus the derived fields. -/
structure Record where
  hostname : String := ""
  asset_tag : String := ""
  environment : String := ""
  owner : String := ""
  team : String := ""
  location : String := ""
  hardware_vendor : String := ""
  hardware_model : String := ""
  serial : String := ""
  os_name : String := ""
  os_version : String := ""
  end_of_service_date : String := ""
  microcode_version : String := ""
  firmware_version : String := ""
  last_audit : String := ""
  notes : String := ""
  owner_email : String := ""
  parsed_eosl_date : PyDateVal := .none
  eosl_status : String := ""
  missing_firmware : Bool := false
  missing_microcode : Bool := false
deriving DecidableEq

/-- Vendor normalisation of the loader (source line 69):
`.str.upper().replace({"SUN":"ORACLE","ORACLE/SUN":"ORACLE"})`
(`Series.replace` with a dict replaces exact full values). -/
def normalize_vendor (v : String) : String :=
  let u := v.toUpper
  if u == "SUN" then "ORACLE"
  else if u == "ORACLE/SUN" then "ORACLE"
  else u

/-- The outcome of `pd.read_csv(filelike, dtype=str).fillna("")`: a
header list and one association list (column name to string value) per
row.  `fillna("")` is reflected by defaulting missing cells to `""`. -/
structure RawTable where
  headers : List String
  rows : List (List (String × String))

/-- Cell access after the required-column synthesis loop (source lines
65-67): a column absent from the table's headers reads as `""` for
every row. -/
def cellOf (headers : List String) (row : List (String × String))
    (c : String) : String :=
  if headers.contains c then ((row.lookup c).getD "") else ""

/-- Builds one `Record` from one raw row: all 17 columns read (missing
ones empty), vendor normalised, EOSL date parsed into
`_end_of_service_date_parsed` (source lines 68-71). -/
def recordOfRow (strp : String → String → Option Int)
    (toDatetimeCoerce : String → Option Int)
    (headers : List String) (row : List (String × String)) : Record :=
  { hostname := cellOf headers row "hostname"
    asset_tag := cellOf headers row "asset_tag"
    environment := cellOf headers row "environment"
    owner := cellOf headers row "owner"
    team := cellOf headers row "team"
    location := cellOf headers row "location"
    hardware_vendor := normalize_vendor (cellOf headers row "hardware_vendor")
    hardware_model := cellOf headers row "hardware_model"
    serial := cellOf headers row "serial"
    os_name := cellOf headers row "os_name"
    os_version := cellOf headers row "os_version"
    end_of_service_date := cellOf headers row "end_of_service_date"
    microcode_version := cellOf headers row "microcode_version"
    firmware_version := cellOf headers row "firmware_version"
    last_audit := cellOf headers row "last_audit"
    notes := cellOf headers row "notes"
    owner_email := cellOf headers row "owner_email"
    parsed_eosl_date :=
      parse_date_safe strp toDatetimeCoerce (cellOf headers row "end_of_service_date") }

/-- `load_inventory_from_file` (source lines 62-72).  The argument is
the outcome of `pd.read_csv` on the uploaded file-like object:
`Except.error` when the input cannot be parsed as tabular data at all
(the only raising step), `Except.ok` a table otherwise.  Normalisation
itself never fails. -/
def load_inventory_from_file (strp : String → String → Option Int)
    (toDatetimeCoerce : String → Option Int)
    (input : Except String RawTable) : Except String (List Record) :=
  match input with
  | .error e => .error e
  | .ok t => .ok (t.rows.map (recordOfRow strp toDatetimeCoerce t.headers))

/-- The upload handler (source lines 144-149): on success the session
inventory is wholesale-replaced by the freshly loaded collection; on
failure the previous collection is kept and an error message surfaced. -/
def uploaded_handler (strp : String → String → Option Int)
    (toDatetimeCoerce : String → Option Int)
    (prev : List Record) (input : Except String RawTable) :
    List Record × Option String :=
  match load_inventory_from_file strp toDatetimeCoerce input with
  | .ok newInv => (newInv, Option.none)
  | .error e => (prev, some ("Failed to load CSV: " ++ e))

/-- The per-row `status` closure of `compute_eosl_status` (source lines
76-84).  `d is None` yields `UNKNOWN`; otherwise `d < today` is
evaluated — for the pandas `NaT` scalar this ordering comparison with a
`datetime.date` raises `TypeError` (pandas >= 2.0, GH#39196). -/
def eosl_status_of (today nearing_days : Int) (d : PyDateVal) :
    Except String String :=
  match d with
  | .none => .ok "UNKNOWN"
  | .nat => .error "TypeError: Cannot compare NaT with datetime.date object"
  | .date dd =>
    .ok (if dd < today then "EXPIRED"
         else if dd ≤ today + nearing_days then "NEARING"
         else "SUPPORTED")

/-- `compute_eosl_status(df, nearing_days)` (source lines 74-86):
`df.apply(status, axis=1)` evaluated row by row, stopping at the first
raising row; every row's `_EOSL_STATUS` is (re)assigned from scratch. -/
def compute_eosl_status (today nearing_days : Int) :
    List Record → Except String (List Record)
  | [] => .ok []
  | r :: rest =>
    match eosl_status_of today nearing_days r.parsed_eosl_date with
    | .error e => .error e
    | .ok s =>
      match compute_eosl_status today nearing_days rest with
      | .error e => .error e
      | .ok rs => .ok ({ r with eosl_status := s } :: rs)

/-- `flag_missing_firmware` (source lines 88-91):
`astype(str).str.strip()==""` on the two version columns. -/
def flag_missing_firmware (df : List Record) : List Record :=
  df.map (fun r =>
    { r with
      missing_firmware := pyStrip r.firmware_version == ""
      missing_microcode := pyStrip r.microcode_version == "" })

/-- Round-half-to-even on an exact rational, the rounding rule of
Python's builtin `round`. -/
def roundHalfEven (q : ℚ) : Int :=
  let f : Int := Rat.floor q
  if q - (f : ℚ) < 1 / 2 then f
  else if (1 : ℚ) / 2 < q - (f : ℚ) then f + 1
  else if f % 2 = 0 then f else f + 1

/-- Python's `round(x, 1)`, modelled over exact rationals. -/
def pyRound1 (q : ℚ) : ℚ := (roundHalfEven (q * 10) : ℚ) / 10

/-- The KPI summary returned by `summarize_kpis`. -/
structure KPIs where
  total : Nat
  expired : Nat
  nearing : Nat
  missing_fw : Nat
  pct_expired : ℚ
deriving DecidableEq

/-- `summarize_kpis(df)` (source lines 93-99): exact boolean-sum
tallies over the given collection and
`round(expired/total*100, 1) if total>0 else 0`
(real-valued arithmetic modelled over exact rationals). -/
def summarize_kpis (df : List Record) : KPIs :=
  let total := df.length
  let expired := df.countP (fun r => r.eosl_status == "EXPIRED")
  let nearing := df.countP (fun r => r.eosl_status == "NEARING")
  let missing_fw := df.countP (fun r => r.missing_firmware || r.missing_microcode)
  { total := total
    expired := expired
    nearing := nearing
    missing_fw := missing_fw
    pct_expired :=
      if total > 0 then pyRound1 ((expired : ℚ) / (total : ℚ) * 100) else 0 }

/-- One audit-log row, in the field order written by
`append_change_log` (`timestamp, hostname, action, actor, details`). -/
structure AuditEntry where
  timestamp : String
  hostname : String
  action : String
  actor : String
  details : String
deriving DecidableEq

/-- The on-disk state of `change_log.csv`: missing, unreadable by
`pd.read_csv`, or readable with the given entries in append order. -/
inductive LogStore where
  | absent
  | malformed
  | ok (entries : List AuditEntry)
deriving DecidableEq

/-- `append_change_log(entry)` (source lines 101-107): opens the file
in append mode (creating it, with a header, when missing) and writes
one row after all existing ones.  Appending a data row to a file that
`pd.read_csv` already fails on does not make it readable. -/
def append_change_log (store : LogStore) (e : AuditEntry) : LogStore :=
  match store with
  | .absent => .ok [e]
  | .malformed => .malformed
  | .ok l => .ok (l ++ [e])

/-- Lexicographic (code-point) strict comparison of character lists:
how Python compares the timestamp strings when pandas sorts the
`timestamp` column read with `dtype=str`. -/
def charsLt : List Char → List Char → Bool
  | [], [] => false
  | [], _ :: _ => true
  | _ :: _, [] => false
  | a :: as, b :: bs => decide (a < b) || (a == b && charsLt as bs)

/-- Python string `<` (code-point lexicographic). -/
def strLtB (a b : String) : Bool := charsLt a.toList b.toList

/-- Python string `<=`, as the negation of the reverse strict order. -/
def strLeB (a b : String) : Bool := !(strLtB b a)

/-- `df.sort_values("timestamp", ascending=False).iloc[0]` over a
non-empty list: pandas `nargsort` with `ascending=False` reverses the
values, argsorts ascending (stable at these array sizes), and reverses
the indexer back, so tied keys keep their original relative order and
the row returned is the *first-occurring* row whose timestamp
(compared as a string) is maximal.  Modelled as a running maximum that
keeps the earlier entry on ties. -/
def pickLatest (best : AuditEntry) : List AuditEntry → AuditEntry
  | [] => best
  | e :: rest => pickLatest (if strLtB best.timestamp e.timestamp then e else best) rest

/-- `get_last_action_for_host(hostname)` (source lines 109-119):
`None` when the store file is absent; any exception while reading or
selecting (malformed store) is caught and yields `None`; otherwise the
rows matching the hostname are selected and, if any, the one with the
latest timestamp is returned. -/
def get_last_action_for_host (store : LogStore) (hostname : String) :
    Option AuditEntry :=
  match store with
  | .absent => Option.none
  | .malformed => Option.none
  | .ok l =>
    match l.filter (fun e => e.hostname == hostname) with
    | [] => Option.none
    | e :: rest => some (pickLatest e rest)

/-- `a == b && ...` style prefix test on character lists, used to model
substring containment. -/
def charsPre : List Char → List Char → Bool
  | [], _ => true
  | _ :: _, [] => false
  | a :: as, b :: bs => a == b && charsPre as bs

/-- Containment of `pat` as a contiguous run in a character list. -/
def charsSub (pat : List Char) : List Char → Bool
  | [] => charsPre pat []
  | c :: cs => charsPre pat (c :: cs) || charsSub pat cs

/-- `Series.str.contains(pat, case=False, na=False)` for a literal
(non-regex-special) pattern: case-insensitive substring containment. -/
def strContainsCI (hay pat : String) : Bool :=
  charsSub pat.toLower.toList hay.toLower.toList

/-- The sidebar filter criteria (source lines 168-173): vendor
multiselect, OS-family multiselect, environment multiselect, EOSL
status selectbox (`"All"` disables), owner/team search text, and the
missing-firmware checkbox. -/
structure Criteria where
  vendors : List String
  os_filter : List String
  envs : List String
  eosl_filter : String
  owner_search : String
  missing_fw_only : Bool

/-- `apply_filters(df)` (source lines 209-223), criteria made explicit.
Each active criterion narrows the running frame `q` in source order.
The OS-family branch (line 214) computes
`q["os_name"].str.contains(...) | (q["os_name"].str.strip()=="" and "Other" in os_filter)`:
the Python `and` forces `bool()` on the Series
`q["os_name"].str.strip()==""`, and `Series.__bool__` raises
unconditionally, so the branch raises `ValueError` whenever
`os_filter` is non-empty. -/
def apply_filters (c : Criteria) (df : List Record) :
    Except String (List Record) :=
  let q := df
  let q := if c.vendors.isEmpty then q
    else q.filter (fun r => (c.vendors.map String.toUpper).contains r.hardware_vendor)
  if c.os_filter.isEmpty then
    let q := if c.envs.isEmpty then q
      else q.filter (fun r => c.envs.contains r.environment)
    let q := if !(c.eosl_filter == "") && !(c.eosl_filter == "All") then
        q.filter (fun r => r.eosl_status == c.eosl_filter)
      else q
    let q := if !(c.owner_search == "") then
        q.filter (fun r =>
          strContainsCI r.owner c.owner_search || strContainsCI r.team c.owner_search)
      else q
    let q := if c.missing_fw_only then
        q.filter (fun r => r.missing_firmware || r.missing_microcode)
      else q
    .ok q
  else
    .error "ValueError: The truth value of a Series is ambiguous. Use a.empty, a.bool(), a.item(), a.any() or a.all()."

/-- The spec-side status characterisation: which EOSL status string `s`
the rule table of the spec assigns to a parsed date `d`, written as a
membership plus one iff per status. -/
def StatusSpec (today nearing_days : Int) (d : PyDateVal) (s : String) : Prop :=
  (s = "UNKNOWN" ∨ s = "EXPIRED" ∨ s = "NEARING" ∨ s = "SUPPORTED")
  ∧ (s = "UNKNOWN" ↔ d = PyDateVal.none)
  ∧ (s = "EXPIRED" ↔ ∃ dd, d = PyDateVal.date dd ∧ dd < today)
  ∧ (s = "NEARING" ↔ ∃ dd, d = PyDateVal.date dd ∧ today ≤ dd ∧ dd ≤ today + nearing_days)
  ∧ (s = "SUPPORTED" ↔
      ∃ dd, d = PyDateVal.date dd ∧ today ≤ dd ∧ today + nearing_days < dd)

/-- A classified record satisfies the spec's status rule table. -/
def ClassifiedRecordOk (today nearing_days : Int) (r : Record) : Prop :=
  StatusSpec today nearing_days r.parsed_eosl_date r.eosl_status

/-- Spec-side exact tally of expired rows: the number of records of the
given collection whose status equals `EXPIRED`. -/
def expiredTallySpec (df : List Record) : Nat :=
  (df.filter (fun r => r.eosl_status == "EXPIRED")).length

/-- Spec-side `pctExpired`: `round(expired/total*100, 1)` when
`total > 0`, else `0`, with the tallies taken over the given
collection. -/
def pctExpiredSpec (df : List Record) : ℚ :=
  if 0 < df.length then
    pyRound1 ((expiredTallySpec df : ℚ) / (df.length : ℚ) * 100)
  else 0

/-- The entirely inactive filter criteria: empty multiselects, EOSL
status `"All"`, empty search text, checkbox off. -/
def inactiveCriteria : Criteria :=
  { vendors := [], os_filter := [], envs := [], eosl_filter := "All",
    owner_search := "", missing_fw_only := false }

/-- Concrete inventory row (a `prod` RHEL host, EOSL date in the past
relative to the test `today`). -/
def wR1 : Record :=
  { hostname := "db-01", environment := "prod", owner := "bob", team := "db",
    hardware_vendor := "HPE", os_name := "RHEL", os_version := "7.9",
    end_of_service_date := "2024-11-30", parsed_eosl_date := .date (-10),
    firmware_version := "FW2.0.1", microcode_version := "1.12" }

/-- Concrete inventory row (a `qa` Windows Server host). -/
def wR2 : Record :=
  { hostname := "web-01", environment := "qa", owner := "alice", team := "web",
    hardware_vendor := "DELL", os_name := "Windows Server", os_version := "2016",
    end_of_service_date := "2028-12-31", parsed_eosl_date := .date 500,
    firmware_version := "FW1.2.3", microcode_version := "2.45" }

/-- Concrete inventory row with a blank `os_name`. -/
def wR3 : Record :=
  { hostname := "edge-01", environment := "edge", owner := "eva", team := "edge",
    hardware_vendor := "CISCO", os_name := "", os_version := "",
    end_of_service_date := "", parsed_eosl_date := .none,
    firmware_version := "FW4.0.1", microcode_version := "4.0" }

/-- Concrete audit entry for host `db-01`. -/
def wE1 : AuditEntry :=
  { timestamp := "2025-01-01T10:00:00", hostname := "db-01",
    action := "INTIMATED", actor := "operator", details := "first" }

/-- Concrete audit entry for host `db-01`, one second later. -/
def wE2 : AuditEntry :=
  { timestamp := "2025-01-01T10:00:01", hostname := "db-01",
    action := "INTIMATED", actor := "operator", details := "second" }

/-- Concrete audit entry for host `db-01` sharing `wE2`'s timestamp but
differing in its details. -/
def wE3 : AuditEntry :=
  { timestamp := "2025-01-01T10:00:01", hostname := "db-01",
    action := "INTIMATED", actor := "operator", details := "tied" }

theorem charsLt_trans : ∀ a b c : List Char,
    charsLt a b = true → charsLt b c = true → charsLt a c = true := by
  intro a
  induction a with
  | nil =>
    intro b c hab hbc
    cases b <;> cases c <;> simp_all [charsLt]
  | cons x xs ih =>
    intro b c hab hbc
    cases b with
    | nil => simp [charsLt] at hab
    | cons y ys =>
      cases c with
      | nil => simp [charsLt] at hbc
      | cons z zs =>
        simp only [charsLt, Bool.or_eq_true, Bool.and_eq_true,
          decide_eq_true_eq, beq_iff_eq] at *
        rcases hab with h1 | ⟨h1, h2⟩ <;> rcases hbc with h3 | ⟨h3, h4⟩
        · exact Or.inl (lt_trans h1 h3)
        · subst h3; exact Or.inl h1
        · subst h1; exact Or.inl h3
        · subst h1; subst h3; exact Or.inr ⟨rfl, ih _ _ h2 h4⟩

theorem charsLt_connex : ∀ a b : List Char,
    charsLt a b = false → charsLt b a = false → a = b := by
  intro a
  induction a with
  | nil =>
    intro b h1 _h2
    cases b with
    | nil => rfl
    | cons y ys => simp [charsLt] at h1
  | cons x xs ih =>
    intro b h1 h2
    cases b with
    | nil => simp [charsLt] at h2
    | cons y ys =>
      simp only [charsLt, Bool.or_eq_false_iff, Bool.and_eq_false_iff,
        decide_eq_false_iff_not, beq_eq_false_iff_ne, ne_eq] at h1 h2
      have hxy : x = y := le_antisymm (not_lt.mp h2.1) (not_lt.mp h1.1)
      subst hxy
      rcases h1.2 with h | h
      · exact absurd rfl h
      · rcases h2.2 with h' | h'
        · exact absurd rfl h'
        · rw [ih ys h h']

theorem charsLt_irrefl : ∀ l : List Char, charsLt l l = false := by
  intro l
  induction l with
  | nil => rfl
  | cons a as ih => simp [charsLt, ih, lt_irrefl]

theorem charsLt_asymm {a b : List Char} (h : charsLt a b = true) :
    charsLt b a = false := by
  by_contra h'
  rw [Bool.not_eq_false] at h'
  have := charsLt_trans a b a h h'
  rw [charsLt_irrefl] at this
  cases this

theorem strLeB_refl (a : String) : strLeB a a = true := by
  simp [strLeB, strLtB, charsLt_irrefl]

theorem strLeB_trans {a b c : String} (h1 : strLeB a b = true)
    (h2 : strLeB b c = true) : strLeB a c = true := by
  simp only [strLeB, strLtB, Bool.not_eq_true', Bool.not_eq_false] at *
  by_contra h'
  rw [Bool.not_eq_false] at h'
  cases hab : charsLt a.toList b.toList with
  | true => exact absurd (charsLt_trans _ _ _ h' hab) (by rw [h2]; exact Bool.false_ne_true)
  | false =>
    have : a.toList = b.toList := charsLt_connex _ _ hab h1
    rw [this] at h'
    exact absurd h' (by rw [h2]; exact Bool.false_ne_true)

theorem strLeB_of_not_lt {a b : String} (h : strLtB a b = false) :
    strLeB b a = true := by
  simp [strLeB, h]

theorem strLeB_of_lt {a b : String} (h : strLtB a b = true) :
    strLeB a b = true := by
  rw [strLtB] at h
  have := charsLt_asymm h
  rw [strLeB, strLtB, this]
  rfl

theorem pickLatest_mem : ∀ (l : List AuditEntry) (best : AuditEntry),
    pickLatest best l ∈ best :: l := by
  intro l
  induction l with
  | nil => intro best; simp [pickLatest]
  | cons e rest ih =>
    intro best
    by_cases h : strLtB best.timestamp e.timestamp = true
    · rw [pickLatest, if_pos h]
      rcases List.mem_cons.mp (ih e) with h' | h'
      · rw [h']; exact List.mem_cons_of_mem _ (List.mem_cons_self _ _)
      · exact List.mem_cons_of_mem _ (List.mem_cons_of_mem _ h')
    · rw [pickLatest, if_neg h]
      rcases List.mem_cons.mp (ih best) with h' | h'
      · rw [h']; exact List.mem_cons_self _ _
      · exact List.mem_cons_of_mem _ (List.mem_cons_of_mem _ h')

theorem le_pickLatest : ∀ (l : List AuditEntry) (best x : AuditEntry),
    x ∈ best :: l → strLeB x.timestamp (pickLatest best l).timestamp = true := by
  intro l
  induction l with
  | nil =>
    intro best x hx
    have : x = best := by simpa using hx
    subst this
    exact strLeB_refl _
  | cons e rest ih =>
    intro best x hx
    by_cases h : strLtB best.timestamp e.timestamp = true
    · rw [pickLatest, if_pos h]
      rcases List.mem_cons.mp hx with h' | h'
      · rw [h']
        exact strLeB_trans (strLeB_of_lt h) (ih e e (List.mem_cons_self _ _))
      · exact ih e x h'
    · rw [pickLatest, if_neg h]
      rw [Bool.not_eq_true] at h
      rcases List.mem_cons.mp hx with h' | h'
      · rw [h']; exact ih best best (List.mem_cons_self _ _)
      · rcases List.mem_cons.mp h' with h'' | h''
        · rw [h'']
          exact strLeB_trans (strLeB_of_not_lt h)
            (ih best best (List.mem_cons_self _ _))
        · exact ih best x (List.mem_cons_of_mem _ h'')

theorem pickLatest_append : ∀ (xs : List AuditEntry) (best E : AuditEntry),
    pickLatest best (xs ++ [E]) =
      if strLtB (pickLatest best xs).timestamp E.timestamp then E
      else pickLatest best xs := by
  intro xs
  induction xs with
  | nil => intro best E; rfl
  | cons x xs ih =>
    intro best E
    simp only [List.cons_append, pickLatest]
    exact ih _ E

/-- C10: filtering with entirely inactive criteria (empty vendor,
OS-family and environment selections, EOSL status `"All"`, empty
owner/team search, missing-firmware checkbox off) is the identity on
the record collection. -/
theorem apply_filters_inactive_identity (df : List Record) :
    apply_filters inactiveCriteria df = Except.ok df := rfl

/-- C2: evaluation of `apply_filters` at the failing input — a
two-record collection with the OS-family criterion `{"RHEL"}` active.
Instead of returning the order-preserving subsequence of records whose
`os_name` matches, the code raises `ValueError` (the Python `and` on
line 214 forces `bool()` of a pandas Series), so the claimed filter
contract fails whenever `osFamilies` is non-empty. -/
theorem apply_filters_os_family_raises :
    apply_filters
      { vendors := [], os_filter := ["RHEL"], envs := [],
        eosl_filter := "All", owner_search := "", missing_fw_only := false }
      [wR1, wR2]
      = Except.error "ValueError: The truth value of a Series is ambiguous. Use a.empty, a.bool(), a.item(), a.any() or a.all()." := rfl

/-- C4: evaluation of `apply_filters` at the failing input — a
collection containing a blank-`os_name` record, filtered with
`osFamilies = {"Other"}`.  The claim says the filter keeps exactly the
blank-`os_name` records (and in particular does not match every row);
the code instead raises `ValueError` on line 214 for any non-empty
`osFamilies` selection. -/
theorem apply_filters_other_only_raises :
    apply_filters
      { vendors := [], os_filter := ["Other"], envs := [],
        eosl_filter := "All", owner_search := "", missing_fw_only := false }
      [wR3, wR1]
      = Except.error "ValueError: The truth value of a Series is ambiguous. Use a.empty, a.bool(), a.item(), a.any() or a.all()." := rfl

/-- C9: `summarize_kpis` returns
`pctExpired = round(expired/total*100, 1)` for non-empty collections
and `0` for the empty collection, where `expired` and `total` are
exact tallies over the given collection (spec-side definitions
`expiredTallySpec` / `pctExpiredSpec`). -/
theorem summarize_pct_expired_spec (df : List Record) :
    (summarize_kpis df).pct_expired = pctExpiredSpec df
    ∧ (summarize_kpis ([] : List Record)).pct_expired = 0 := by
  constructor
  · simp only [summarize_kpis, pctExpiredSpec, expiredTallySpec,
      List.countP_eq_length_filter]
  · rfl

/-- C3: evaluation of `parse_date_safe` at the failing input
`"garbage"`: when every fixed format fails and the pandas fallback
coerces to `NaT`, the function returns the `NaT` scalar
(`NaT.date()` is `NaT`), not `None` as the claim states. -/
theorem parse_date_fallback_nat (strp : String → String → Option Int)
    (toDatetimeCoerce : String → Option Int)
    (hfmt : ∀ f, strp f "garbage" = Option.none)
    (hco : toDatetimeCoerce "garbage" = Option.none) :
    parse_date_safe strp toDatetimeCoerce "garbage" = PyDateVal.nat := by
  have hs : pyStrip "garbage" = "garbage" := rfl
  unfold parse_date_safe
  rw [hs]
  simp [tryFormats, DATE_FORMATS, hfmt, hco]

/-- Witness for `parse_date_fallback_nat`: concrete library behaviours
under which all five formats fail and the coercion yields `NaT`. -/
theorem parse_date_fallback_nat_witness :
    parse_date_safe (fun _ _ => Option.none) (fun _ => Option.none) "garbage"
      = PyDateVal.nat :=
  parse_date_fallback_nat (fun _ _ => Option.none) (fun _ => Option.none)
    (fun _ => rfl) rfl

/-- C7: loading is atomic.  For every previously loaded collection and
every raw upload, either `pd.read_csv` parses the input as tabular
data and the session inventory is wholesale-replaced by the freshly
normalised collection with no error message, or the input is not
parseable as tabular data at all, a user-facing message is surfaced,
and the previous collection is returned unchanged. -/
theorem upload_load_atomic (strp : String → String → Option Int)
    (toDatetimeCoerce : String → Option Int)
    (prev : List Record) (input : Except String RawTable) :
    (∃ recs, load_inventory_from_file strp toDatetimeCoerce input = Except.ok recs
      ∧ uploaded_handler strp toDatetimeCoerce prev input = (recs, Option.none))
    ∨ (∃ e, input = Except.error e
      ∧ uploaded_handler strp toDatetimeCoerce prev input
          = (prev, some ("Failed to load CSV: " ++ e))) := by
  cases input with
  | ok t => exact Or.inl ⟨_, rfl, rfl⟩
  | error e => exact Or.inr ⟨e, rfl, rfl⟩

/-- C5 (amended): audit-log append-then-read round-trip.  After
appending entry `E` to a readable change log, if every pre-existing
entry for `E`'s hostname has a (lexicographically) strictly earlier
timestamp — no later-or-equal entry — then
`get_last_action_for_host` on `E`'s hostname returns `E` itself, field
for field.  With merely "no strictly later entry", a pre-existing tied
timestamp makes the code return the old entry instead (see
`audit_append_equal_ts_counterexample`), because the descending sort
keeps tied rows in original order. -/
theorem audit_append_then_read (l : List AuditEntry) (E : AuditEntry)
    (hearlier : ∀ e ∈ l.filter (fun e => e.hostname == E.hostname),
      strLtB e.timestamp E.timestamp = true) :
    get_last_action_for_host (append_change_log (LogStore.ok l) E) E.hostname
      = some E := by
  have hfilter : (l ++ [E]).filter (fun e => e.hostname == E.hostname)
      = l.filter (fun e => e.hostname == E.hostname) ++ [E] := by
    rw [List.filter_append]
    simp
  show get_last_action_for_host (LogStore.ok (l ++ [E])) E.hostname = some E
  cases hm : l.filter (fun e => e.hostname == E.hostname) with
  | nil =>
    simp only [get_last_action_for_host, hfilter, hm, List.nil_append]
    rfl
  | cons e0 rest =>
    simp only [get_last_action_for_host, hfilter, hm, List.cons_append]
    rw [pickLatest_append]
    have hbmem : pickLatest e0 rest
        ∈ l.filter (fun e => e.hostname == E.hostname) := by
      rw [hm]
      exact pickLatest_mem rest e0
    rw [if_pos (hearlier _ hbmem)]

/-- Witness for `audit_append_then_read`: appending the later entry
`wE2` after the strictly earlier `wE1` and reading back `db-01`'s last
action returns `wE2`. -/
theorem audit_append_then_read_witness :
    (∀ e ∈ [wE1].filter (fun e => e.hostname == wE2.hostname),
      strLtB e.timestamp wE2.timestamp = true)
    ∧ get_last_action_for_host (append_change_log (LogStore.ok [wE1]) wE2)
        wE2.hostname = some wE2 :=
  ⟨by decide, audit_append_then_read [wE1] wE2 (by decide)⟩

/-- Counterexample to C5 as stated: host `db-01` already has the entry
`wE3` whose timestamp equals `wE2`'s.  After appending `wE2`, no entry
for the hostname has a strictly later timestamp than `wE2`'s — the
claim's hypothesis holds — yet the read-back returns the old tied
entry `wE3`, which differs from `wE2` in its `details` field, because
`sort_values("timestamp", ascending=False).iloc[0]` yields the
first-occurring row among tied maximal timestamps. -/
theorem audit_append_equal_ts_counterexample :
    (∀ e ∈ ([wE3] ++ [wE2]).filter (fun e => e.hostname == wE2.hostname),
      strLtB wE2.timestamp e.timestamp = false)
    ∧ get_last_action_for_host (append_change_log (LogStore.ok [wE3]) wE2)
        wE2.hostname = some wE3
    ∧ some wE3 ≠ some wE2 :=
  ⟨by decide, by decide, by decide⟩

/-- C6: `get_last_action_for_host` returns `None` when the store is
absent, when it is malformed/unreadable, and when it has no entry for
the hostname; otherwise it returns a matching entry whose timestamp is
maximal among the matching entries. -/
theorem last_action_total_spec (h : String) (l : List AuditEntry) :
    get_last_action_for_host LogStore.absent h = Option.none
    ∧ get_last_action_for_host LogStore.malformed h = Option.none
    ∧ (l.filter (fun e => e.hostname == h) = [] →
        get_last_action_for_host (LogStore.ok l) h = Option.none)
    ∧ (l.filter (fun e => e.hostname == h) ≠ [] →
        ∃ e, get_last_action_for_host (LogStore.ok l) h = some e
          ∧ e ∈ l.filter (fun e => e.hostname == h)
          ∧ ∀ e' ∈ l.filter (fun e => e.hostname == h),
              strLeB e'.timestamp e.timestamp = true) := by
  refine ⟨rfl, rfl, ?_, ?_⟩
  · intro hm
    simp only [get_last_action_for_host, hm]
  · intro hm
    cases hme : l.filter (fun e => e.hostname == h) with
    | nil => exact absurd hme hm
    | cons e0 rest =>
      refine ⟨pickLatest e0 rest, ?_, ?_, ?_⟩
      · simp only [get_last_action_for_host, hme]
      · exact pickLatest_mem rest e0
      · intro e' he'
        exact le_pickLatest rest e0 e' he'

/-- Witness for `last_action_total_spec`: a concrete two-entry log for
`db-01` has a matching, timestamp-maximal last action. -/
theorem last_action_total_spec_witness :
    ([wE1, wE2].filter (fun e => e.hostname == "db-01") ≠ [])
    ∧ (∃ e, get_last_action_for_host (LogStore.ok [wE1, wE2]) "db-01" = some e
        ∧ e ∈ [wE1, wE2].filter (fun e => e.hostname == "db-01")
        ∧ ∀ e' ∈ [wE1, wE2].filter (fun e => e.hostname == "db-01"),
            strLeB e'.timestamp e.timestamp = true) :=
  ⟨by decide, (last_action_total_spec "db-01" [wE1, wE2]).2.2.2 (by decide)⟩

theorem statusSpec_of_ok (today n : Int) (d : PyDateVal) (s : String)
    (h : eosl_status_of today n d = Except.ok s) : StatusSpec today n d s := by
  cases d with
  | none =>
    rw [eosl_status_of] at h
    cases h
    refine ⟨Or.inl rfl, ?_, ?_, ?_, ?_⟩ <;> simp
  | nat => cases h
  | date dd =>
    rw [eosl_status_of] at h
    cases h
    by_cases h1 : dd < today
    · rw [if_pos h1]
      refine ⟨Or.inr (Or.inl rfl), by simp, ?_, ?_, ?_⟩ <;> simp <;> omega
    · rw [if_neg h1]
      by_cases h2 : dd ≤ today + n
      · rw [if_pos h2]
        refine ⟨Or.inr (Or.inr (Or.inl rfl)), by simp, ?_, ?_, ?_⟩ <;>
          simp <;> omega
      · rw [if_neg h2]
        refine ⟨Or.inr (Or.inr (Or.inr rfl)), by simp, ?_, ?_, ?_⟩ <;>
          simp <;> omega

/-- C1: for every record of a successfully classified collection, the
assigned status is exactly one of EXPIRED/NEARING/SUPPORTED/UNKNOWN,
is UNKNOWN iff the parsed EOSL date is `None`, is EXPIRED iff the date
is before `today`, is NEARING iff the date lies in
`[today, today + nearingDays]`, and is SUPPORTED iff the date lies
beyond the nearing window. -/
theorem classify_status_partition (today n : Int) (df df' : List Record)
    (hok : compute_eosl_status today n df = Except.ok df') :
    ∀ r ∈ df', ClassifiedRecordOk today n r := by
  induction df generalizing df' with
  | nil =>
    simp only [compute_eosl_status] at hok
    cases hok
    intro r hr
    cases hr
  | cons r rest ih =>
    simp only [compute_eosl_status] at hok
    cases hs : eosl_status_of today n r.parsed_eosl_date with
    | error e => rw [hs] at hok; cases hok
    | ok s =>
      rw [hs] at hok
      cases hrest : compute_eosl_status today n rest with
      | error e => rw [hrest] at hok; cases hok
      | ok rs =>
        rw [hrest] at hok
        cases hok
        intro r' hr'
        rcases List.mem_cons.mp hr' with h' | h'
        · subst h'
          exact statusSpec_of_ok today n r.parsed_eosl_date s hs
        · exact ih rs hrest r' h'

/-- Witness for `classify_status_partition`: classifying the concrete
record `wR1` (EOSL date before `today`) yields EXPIRED and the full
status rule table holds for it. -/
theorem classify_status_partition_witness :
    compute_eosl_status 100 90 [wR1]
      = Except.ok [{ wR1 with eosl_status := "EXPIRED" }]
    ∧ ClassifiedRecordOk 100 90 { wR1 with eosl_status := "EXPIRED" } :=
  ⟨rfl,
    classify_status_partition 100 90 [wR1]
      [{ wR1 with eosl_status := "EXPIRED" }] rfl
      { wR1 with eosl_status := "EXPIRED" } (List.mem_singleton.mpr rfl)⟩

theorem compute_bind (today n1 n2 : Int) :
    ∀ df : List Record,
      (compute_eosl_status today n1 df).bind (compute_eosl_status today n2)
        = compute_eosl_status today n2 df := by
  intro df
  induction df with
  | nil => rfl
  | cons r rest ih =>
    cases hp : r.parsed_eosl_date with
    | nat =>
      simp only [compute_eosl_status, eosl_status_of, hp]
      rfl
    | none =>
      cases hrest : compute_eosl_status today n1 rest with
      | error e =>
        have hc : compute_eosl_status today n2 rest = Except.error e := by
          rw [← ih, hrest]; rfl
        simp only [compute_eosl_status, eosl_status_of, hp, hrest, hc]
        rfl
      | ok rs =>
        have hc : compute_eosl_status today n2 rest
            = compute_eosl_status today n2 rs := by
          rw [← ih, hrest]; rfl
        simp only [compute_eosl_status, eosl_status_of, hp, hrest, hc,
          Except.bind]
    | date dd =>
      cases hrest : compute_eosl_status today n1 rest with
      | error e =>
        have hc : compute_eosl_status today n2 rest = Except.error e := by
          rw [← ih, hrest]; rfl
        simp only [compute_eosl_status, eosl_status_of, hp, hrest, hc]
        rfl
      | ok rs =>
        have hc : compute_eosl_status today n2 rest
            = compute_eosl_status today n2 rs := by
          rw [← ih, hrest]; rfl
        simp only [compute_eosl_status, eosl_status_of, hp, hrest, hc,
          Except.bind]

/-- C8: with `today` fixed, classification is a deterministic function
of its inputs, and re-running it (with a different or the same
`nearingDays`) over an already classified collection fully recomputes
every status with no stale carry-over: classifying with `n1` and then
with `n2` equals classifying directly with `n2`, and re-running with
the same `n2` changes nothing further. -/
theorem classify_pure_recompute (today n1 n2 : Int) (df : List Record)
    (_h1 : 0 < n1) (_h2 : 0 < n2) :
    (compute_eosl_status today n1 df).bind (compute_eosl_status today n2)
        = compute_eosl_status today n2 df
    ∧ (compute_eosl_status today n2 df).bind (compute_eosl_status today n2)
        = compute_eosl_status today n2 df :=
  ⟨compute_bind today n1 n2 df, compute_bind today n2 n2 df⟩

/-- Witness for `classify_pure_recompute` at `today = 0`,
`nearingDays` 90 then 30, on the concrete record `wR1`. -/
theorem classify_pure_recompute_witness :
    (0 : Int) < 90 ∧ (0 : Int) < 30
    ∧ ((compute_eosl_status 0 90 [wR1]).bind (compute_eosl_status 0 30)
        = compute_eosl_status 0 30 [wR1]
      ∧ (compute_eosl_status 0 30 [wR1]).bind (compute_eosl_status 0 30)
        = compute_eosl_status 0 30 [wR1]) :=
  ⟨by decide, by decide,
    classify_pure_recompute 0 90 30 [wR1] (by decide) (by decide)⟩
